import Mathlib

/-!
Shallow embedding of the middleware bundle assembly stage from
`packages/next-swc/crates/next-api/src/middleware.rs`.

External collaborators (asset context, chunking context, config parser,
persistence, change tracking) are modelled as function-valued fields of a
`BuildEnv` record; the logic of `MiddlewareEndpoint` itself is translated
directly from the source.  Types that live in sibling crates of this
repository (next-core manifests, turbo tasks file system) are modelled
from the specification and marked as such in their doc comments.
-/

/-- Opaque handle for a resolved module graph node (`Vc<Box<dyn JsModule>>`);
only its identity matters to this stage. -/
structure JsModule where
  ident : Nat
deriving DecidableEq

/-- Opaque handle for a module downcast to `Box<dyn EcmascriptChunkPlaceable>`. -/
structure EcmascriptChunkPlaceable where
  ident : Nat
deriving DecidableEq

/-- Opaque handle for an evaluatable asset handed to the chunking engine. -/
structure EvaluatableAsset where
  ident : Nat
deriving DecidableEq

/-- Opaque handle for the asset context collaborator (`Vc<Box<dyn AssetContext>>`). -/
structure AssetContext where
  id : Nat
deriving DecidableEq

/-- An output asset: a logical path plus frozen content. -/
structure OutputAsset where
  path : String
  content : String
deriving DecidableEq

/-- The project collaborator surface used by `MiddlewareEndpoint`:
`project_path()`, `node_root()` and the edge chunking context handle. -/
structure Project where
  project_path : String
  node_root : String
  edge_chunking_context : Nat
deriving DecidableEq

/-- Modelled from the spec: the server context discriminator passed to
`get_server_runtime_entries`; only the `Middleware` variant is used here. -/
inductive ServerContextType where
  | pages
  | pagesApi
  | appSSR
  | appRSC
  | appRoute
  | middleware
deriving DecidableEq

/-- Modelled from the spec: the build mode discriminator (`NextMode`). -/
inductive NextMode where
  | development
  | build
deriving DecidableEq

/-- Modelled from the spec: one routing rule — an original source pattern
string, an optional compiled regular-expression string, and optional extra
fields (locale/has/missing conditions) defaulted to absent. -/
structure MiddlewareMatcher where
  regexp : Option String := none
  original_source : String := ""
  locale : Option Bool := none
  has : Option (List String) := none
  missing : Option (List String) := none
deriving DecidableEq

/-- Modelled from the spec: one routable function descriptor — ordered list
of root-relative file paths, a stable name, a route key, an optional region
constraint, and a matcher list; remaining fields default to absent. -/
structure EdgeFunctionDefinition where
  files : List String
  name : String
  page : String
  regions : Option (List String) := none
  matchers : List MiddlewareMatcher
deriving DecidableEq

/-- Modelled from the spec: the versioned manifest document — a version tag
and a mapping from route key to one `EdgeFunctionDefinition`. -/
structure MiddlewaresManifestV2 where
  version : Nat := 2
  middleware : List (String × EdgeFunctionDefinition) := []
deriving DecidableEq

/-- The parsed user configuration surface this stage consumes
(`parse_config_from_source(...).matcher`). -/
structure MiddlewareConfig where
  matcher : Option (List String)
deriving DecidableEq

/-- The externally visible result of a successful build; only the `Edge`
variant is produced by this endpoint. -/
inductive WrittenEndpoint where
  | edge (server_paths : List String)
deriving DecidableEq

/-- Modelled from the spec: relative-path computation of the external
file-system collaborator (used as `node_root.get_path_to(path)`): an asset
at `R/x` resolves to `x`, the root itself resolves to the empty path, and
anything outside the root resolves to `none`. -/
def get_path_to (root other : String) : Option String :=
  if other = root then some ""
  else if List.isPrefixOf (root ++ "/").toList other.toList then
    some (other.drop (root.length + 1))
  else none

/-- Modelled from the spec: path join of the external file-system
collaborator (`node_root.join(rel)`). -/
def join_path (root rel : String) : String := root ++ "/" ++ rel

/-- The external collaborator functions `MiddlewareEndpoint` calls, passed
explicitly instead of being ambient. -/
structure BuildEnv where
  get_middleware_module : AssetContext → String → JsModule → JsModule
  wrap_edge_entry : AssetContext → String → JsModule → String → JsModule
  get_server_runtime_entries : ServerContextType → NextMode → AssetContext → List EvaluatableAsset
  try_resolve_chunk_placeable : JsModule → Option EcmascriptChunkPlaceable
  try_resolve_evaluatable : EcmascriptChunkPlaceable → Option EvaluatableAsset
  evaluated_chunk_group : Nat → Nat → List EvaluatableAsset → List OutputAsset
  parse_config_from_source : JsModule → MiddlewareConfig
  all_server_paths : List OutputAsset → String → List String
  project_server_changed : Except String (List OutputAsset) → Nat

/-- The endpoint value: the immutable (project, context, module) triple. -/
structure MiddlewareEndpoint where
  project : Project
  context : AssetContext
  userland_module : JsModule

namespace MiddlewareEndpoint

/-- The entry module after the middleware shim and the edge entry wrapper,
as built at the top of `edge_files`. -/
def wrapped_module (env : BuildEnv) (self : MiddlewareEndpoint) : JsModule :=
  env.wrap_edge_entry self.context self.project.project_path
    (env.get_middleware_module self.context self.project.project_path self.userland_module)
    "middleware"

/-- Observable record of one `edge_files` computation: the (context, mode)
pair requested from `get_server_runtime_entries`, the bootstrap entries it
returned, and the result — on success the evaluatable entries passed to the
chunking engine together with the produced files. -/
structure EdgeFilesTrace where
  runtime_request : ServerContextType × NextMode
  bootstrap_entries : List EvaluatableAsset
  result : Except String (List EvaluatableAsset × List OutputAsset)

/-- Translation of `MiddlewareEndpoint::edge_files` (middleware.rs lines
56 to 96), additionally recording the runtime-entries request. -/
def edgeFilesTraced (env : BuildEnv) (self : MiddlewareEndpoint) : EdgeFilesTrace :=
  let module := self.wrapped_module env
  let request := (ServerContextType.middleware, NextMode.development)
  let evaluatable_assets := env.get_server_runtime_entries request.1 request.2 self.context
  match env.try_resolve_chunk_placeable module with
  | none =>
    { runtime_request := request, bootstrap_entries := evaluatable_assets,
      result := Except.error "Entry module must be evaluatable" }
  | some placeable =>
    match env.try_resolve_evaluatable placeable with
    | none =>
      { runtime_request := request, bootstrap_entries := evaluatable_assets,
        result := Except.error "Entry module must be evaluatable" }
    | some evaluatable =>
      let entries := evaluatable_assets ++ [evaluatable]
      { runtime_request := request, bootstrap_entries := evaluatable_assets,
        result := Except.ok (entries,
          env.evaluated_chunk_group self.project.edge_chunking_context placeable.ident entries) }

end MiddlewareEndpoint

/-- Translation of the relative-path computation in `output_assets`
(middleware.rs lines 108 to 120): a fail-fast map + join over the bundle
outputs, each relativized against the node root. -/
def files_paths_from_root (node_root : String) (output_assets : List OutputAsset) :
    Except String (List String) :=
  match output_assets with
  | [] => Except.ok []
  | file :: rest =>
    match get_path_to node_root file.path with
    | none => Except.error "middleware file path must be inside the node root"
    | some p =>
      match files_paths_from_root node_root rest with
      | Except.error e => Except.error e
      | Except.ok ps => Except.ok (p :: ps)

/-- Translation of the matcher resolution in `output_assets` (middleware.rs
lines 122 to 136): an explicit matcher list is passed through with only
`original_source` populated; an absent field yields the single catch-all. -/
def resolve_matchers (config : MiddlewareConfig) : List MiddlewareMatcher :=
  match config.matcher with
  | some matchers => matchers.map (fun matcher => { original_source := matcher })
  | none => [{ regexp := some "^/.*$", original_source := "/:path*" }]

/-- Modelled from the spec: JSON string escaping of the external serializer. -/
def json_escape_char (c : Char) : String :=
  if c = '"' then "\\\""
  else if c = '\\' then "\\\\"
  else if c = '\n' then "\\n"
  else if c = '\t' then "\\t"
  else if c = '\r' then "\\r"
  else String.singleton c

/-- Modelled from the spec: JSON string escaping lifted to whole strings. -/
def json_escape (s : String) : String := String.join (s.toList.map json_escape_char)

/-- Modelled from the spec: a JSON string literal. -/
def json_of_string (s : String) : String := "\"" ++ json_escape s ++ "\""

/-- Modelled from the spec: an optional string serialized as `null` or a literal. -/
def json_of_opt_string (o : Option String) : String :=
  match o with
  | none => "null"
  | some s => json_of_string s

/-- Modelled from the spec: pretty-printed JSON array with two-space indent. -/
def json_array_pretty (ind : String) (elems : List String) : String :=
  match elems with
  | [] => "[]"
  | _ =>
    "[\n" ++ String.intercalate ",\n" (elems.map (fun e => ind ++ "  " ++ e))
      ++ "\n" ++ ind ++ "]"

/-- Modelled from the spec: pretty-printed JSON object with two-space indent. -/
def json_object_pretty (ind : String) (fields : List (String × String)) : String :=
  match fields with
  | [] => "\x7b\x7d"
  | _ =>
    "\x7b\n"
      ++ String.intercalate ",\n"
          (fields.map (fun f => ind ++ "  " ++ json_of_string f.1 ++ ": " ++ f.2))
      ++ "\n" ++ ind ++ "\x7d"

/-- Modelled from the spec: serialization of one matcher, shape
`\x7b "regexp": string|null, "originalSource": string \x7d`. -/
def MiddlewareMatcher.to_json (ind : String) (m : MiddlewareMatcher) : String :=
  json_object_pretty ind
    [("regexp", json_of_opt_string m.regexp),
     ("originalSource", json_of_string m.original_source)]

/-- Modelled from the spec: serialization of one function descriptor with
fields `files`, `name`, `page`, `regions`, `matchers`. -/
def EdgeFunctionDefinition.to_json (ind : String) (d : EdgeFunctionDefinition) : String :=
  json_object_pretty ind
    [("files", json_array_pretty (ind ++ "  ") (d.files.map json_of_string)),
     ("name", json_of_string d.name),
     ("page", json_of_string d.page),
     ("regions",
       match d.regions with
       | none => "null"
       | some rs => json_array_pretty (ind ++ "  ") (rs.map json_of_string)),
     ("matchers",
       json_array_pretty (ind ++ "  ")
         (d.matchers.map (fun m => MiddlewareMatcher.to_json (ind ++ "    ") m)))]

/-- Modelled from the spec: serialization of the manifest document, shape
`\x7b "version": 2, "middleware": \x7b route: descriptor \x7d \x7d`. -/
def MiddlewaresManifestV2.to_json (m : MiddlewaresManifestV2) : String :=
  json_object_pretty ""
    [("version", toString m.version),
     ("middleware",
       json_object_pretty "  "
         (m.middleware.map (fun kv => (kv.1, EdgeFunctionDefinition.to_json "    " kv.2))))]

/-- Modelled from the spec: the external pretty serializer
(`serde_json::to_string_pretty`), a total deterministic function here. -/
def to_string_pretty (m : MiddlewaresManifestV2) : String := m.to_json

namespace MiddlewareEndpoint

/-- Translation of `MiddlewareEndpoint::output_assets` (middleware.rs lines
98 to 164), returning both the output asset list and the manifest value it
serialized so both are observable. -/
def assemble (env : BuildEnv) (self : MiddlewareEndpoint) :
    Except String (List OutputAsset × MiddlewaresManifestV2) :=
  let config := env.parse_config_from_source self.userland_module
  match (self.edgeFilesTraced env).result with
  | Except.error e => Except.error e
  | Except.ok (_entries, output_assets) =>
    let node_root := self.project.node_root
    match files_paths_from_root node_root output_assets with
    | Except.error e => Except.error e
    | Except.ok paths =>
      let matchers := resolve_matchers config
      let edge_function_definition : EdgeFunctionDefinition :=
        { files := paths, name := "middleware", page := "/", regions := none,
          matchers := matchers }
      let middleware_manifest_v2 : MiddlewaresManifestV2 :=
        { version := 2, middleware := [("/", edge_function_definition)] }
      let manifest_asset : OutputAsset :=
        { path := join_path node_root "server/middleware/middleware-manifest.json",
          content := to_string_pretty middleware_manifest_v2 }
      Except.ok (output_assets ++ [manifest_asset], middleware_manifest_v2)

/-- The output asset list of `output_assets`. -/
def output_assets (env : BuildEnv) (self : MiddlewareEndpoint) :
    Except String (List OutputAsset) :=
  (self.assemble env).map Prod.fst

/-- The manifest value `output_assets` serializes. -/
def middleware_manifest (env : BuildEnv) (self : MiddlewareEndpoint) :
    Except String MiddlewaresManifestV2 :=
  (self.assemble env).map Prod.snd

/-- Observable record of one `write_to_disk` run: the asset sets handed to
`emit_all_output_assets` (each element one completed call), and the result. -/
structure WriteToDiskResult where
  emitted : List (List OutputAsset)
  result : Except String WrittenEndpoint

/-- Translation of `Endpoint::write_to_disk` (middleware.rs lines 169 to
188): compute the output assets, emit them all, then return the
server-relevant paths as the `Edge` payload. -/
def write_to_disk (env : BuildEnv) (self : MiddlewareEndpoint) : WriteToDiskResult :=
  match self.output_assets env with
  | Except.error e => { emitted := [], result := Except.error e }
  | Except.ok assets =>
    let server_paths := env.all_server_paths assets self.project.node_root
    { emitted := [assets],
      result := Except.ok (WrittenEndpoint.edge server_paths) }

/-- Translation of `Endpoint::server_changed` (middleware.rs lines 190 to
193): the change signal of the project applied to this endpoint's
`output_assets` computation. -/
def server_changed (env : BuildEnv) (self : MiddlewareEndpoint) : Nat :=
  env.project_server_changed (self.output_assets env)

/-- Translation of `Endpoint::client_changed` (middleware.rs lines 195 to
198): a fixed, input-independent immutable completion. -/
def client_changed (_env : BuildEnv) (_self : MiddlewareEndpoint) : Nat := 0

end MiddlewareEndpoint

/-! ### Derived shapes and helper lemmas -/

/-- The manifest value `output_assets` builds from the relative paths and the
parsed config (middleware.rs lines 138 to 151), as a reusable abbreviation. -/
def manifest_of (env : BuildEnv) (self : MiddlewareEndpoint) (paths : List String) :
    MiddlewaresManifestV2 :=
  { version := 2,
    middleware := [("/",
      { files := paths, name := "middleware", page := "/", regions := none,
        matchers := resolve_matchers (env.parse_config_from_source self.userland_module) })] }

/-- The virtual manifest output asset (middleware.rs lines 152 to 160). -/
def manifest_asset_of (env : BuildEnv) (self : MiddlewareEndpoint) (paths : List String) :
    OutputAsset :=
  { path := join_path self.project.node_root "server/middleware/middleware-manifest.json",
    content := to_string_pretty (manifest_of env self paths) }

/-- A concrete endpoint reused by the concrete evaluations below. -/
def demo_endpoint : MiddlewareEndpoint :=
  { project := { project_path := "/proj", node_root := "/proj/.next", edge_chunking_context := 0 },
    context := { id := 0 },
    userland_module := { ident := 0 } }

/-- A concrete environment whose config parser reports an explicit empty
matcher list and whose chunking engine returns no files. -/
def env_empty_matcher : BuildEnv :=
  { get_middleware_module := fun _ _ m => m,
    wrap_edge_entry := fun _ _ m _ => m,
    get_server_runtime_entries := fun _ _ _ => [],
    try_resolve_chunk_placeable := fun m => some { ident := m.ident },
    try_resolve_evaluatable := fun c => some { ident := c.ident },
    evaluated_chunk_group := fun _ _ _ => [],
    parse_config_from_source := fun _ => { matcher := some [] },
    all_server_paths := fun assets root => assets.filterMap (fun a => get_path_to root a.path),
    project_server_changed := fun _ => 0 }

/-- A concrete environment with no matcher config and one bundle file under
the node root. -/
def env_no_matcher : BuildEnv :=
  { get_middleware_module := fun _ _ m => m,
    wrap_edge_entry := fun _ _ m _ => m,
    get_server_runtime_entries := fun _ _ _ => [{ ident := 7 }],
    try_resolve_chunk_placeable := fun m => some { ident := m.ident },
    try_resolve_evaluatable := fun c => some { ident := c.ident },
    evaluated_chunk_group := fun _ _ _ =>
      [{ path := "/proj/.next/server/middleware/edge.js", content := "code" }],
    parse_config_from_source := fun _ => { matcher := none },
    all_server_paths := fun assets root => assets.filterMap (fun a => get_path_to root a.path),
    project_server_changed := fun _ => 0 }

/-- A concrete environment whose entry module cannot be resolved to a
chunk-placeable form. -/
def env_unresolvable : BuildEnv :=
  { get_middleware_module := fun _ _ m => m,
    wrap_edge_entry := fun _ _ m _ => m,
    get_server_runtime_entries := fun _ _ _ => [],
    try_resolve_chunk_placeable := fun _ => none,
    try_resolve_evaluatable := fun c => some { ident := c.ident },
    evaluated_chunk_group := fun _ _ _ => [],
    parse_config_from_source := fun _ => { matcher := none },
    all_server_paths := fun assets root => assets.filterMap (fun a => get_path_to root a.path),
    project_server_changed := fun _ => 0 }

/-- A concrete environment like `env_no_matcher` but with different bundle
content and different bootstrap entries, same asset paths. -/
def env_alt : BuildEnv :=
  { get_middleware_module := fun _ _ m => m,
    wrap_edge_entry := fun _ _ m _ => m,
    get_server_runtime_entries := fun _ _ _ => [{ ident := 9 }],
    try_resolve_chunk_placeable := fun m => some { ident := m.ident },
    try_resolve_evaluatable := fun c => some { ident := c.ident },
    evaluated_chunk_group := fun _ _ _ =>
      [{ path := "/proj/.next/server/middleware/edge.js", content := "code2" }],
    parse_config_from_source := fun _ => { matcher := none },
    all_server_paths := fun assets root => assets.filterMap (fun a => get_path_to root a.path),
    project_server_changed := fun _ => 1 }
/-- The asset sets a run of `write_to_disk` would emit for a given
`output_assets` result: none on failure, exactly that set on success. -/
def emitted_of (r : Except String (List OutputAsset)) : List (List OutputAsset) :=
  match r with
  | Except.error _ => []
  | Except.ok assets => [assets]


/-- The concrete manifest value assembled for `env_no_matcher` / `demo_endpoint`. -/
def demo_manifest : MiddlewaresManifestV2 :=
  { version := 2,
    middleware := [("/",
      { files := ["server/middleware/edge.js"], name := "middleware", page := "/",
        regions := none,
        matchers := [{ regexp := some "^/.*$", original_source := "/:path*" }] })] }

/-! ### Assembly helper lemmas -/

theorem assemble_ok (env : BuildEnv) (self : MiddlewareEndpoint)
    (entries : List EvaluatableAsset) (outs : List OutputAsset) (paths : List String)
    (h1 : (self.edgeFilesTraced env).result = Except.ok (entries, outs))
    (h2 : files_paths_from_root self.project.node_root outs = Except.ok paths) :
    self.assemble env =
      Except.ok (outs ++ [manifest_asset_of env self paths], manifest_of env self paths) := by
  simp only [MiddlewareEndpoint.assemble, h1, h2, manifest_of, manifest_asset_of]

theorem assemble_error_inv (env : BuildEnv) (self : MiddlewareEndpoint) (e : String)
    (h : self.assemble env = Except.error e) :
    (self.edgeFilesTraced env).result = Except.error e ∨
      (∃ entries outs, (self.edgeFilesTraced env).result = Except.ok (entries, outs) ∧
        files_paths_from_root self.project.node_root outs = Except.error e) := by
  cases h1 : (self.edgeFilesTraced env).result with
  | error e2 =>
    simp only [MiddlewareEndpoint.assemble, h1] at h
    cases h
    exact Or.inl rfl
  | ok pr =>
    obtain ⟨entries, outs⟩ := pr
    cases h2 : files_paths_from_root self.project.node_root outs with
    | error e2 =>
      simp only [MiddlewareEndpoint.assemble, h1, h2] at h
      cases h
      exact Or.inr ⟨entries, outs, rfl, h2⟩
    | ok paths =>
      simp only [MiddlewareEndpoint.assemble, h1, h2] at h
      cases h

theorem assemble_ok_inv (env : BuildEnv) (self : MiddlewareEndpoint)
    (r : List OutputAsset × MiddlewaresManifestV2)
    (h : self.assemble env = Except.ok r) :
    ∃ entries outs paths,
      (self.edgeFilesTraced env).result = Except.ok (entries, outs) ∧
      files_paths_from_root self.project.node_root outs = Except.ok paths ∧
      r = (outs ++ [manifest_asset_of env self paths], manifest_of env self paths) := by
  cases h1 : (self.edgeFilesTraced env).result with
  | error e =>
    simp only [MiddlewareEndpoint.assemble, h1] at h
    cases h
  | ok pr =>
    obtain ⟨entries, outs⟩ := pr
    cases h2 : files_paths_from_root self.project.node_root outs with
    | error e =>
      simp only [MiddlewareEndpoint.assemble, h1, h2] at h
      cases h
    | ok paths =>
      refine ⟨entries, outs, paths, rfl, h2, ?_⟩
      simp only [MiddlewareEndpoint.assemble, h1, h2] at h
      cases h
      rfl

/-! ### Claim C1 -/

/-- C1 counterexample: a parsed config with an explicit empty `matcher` list
makes the matcher resolution inside `output_assets` produce zero matchers,
not the single default, and the manifest entry for route "/" is assembled
with an empty matcher list. -/
theorem resolve_matchers_empty_list_counterexample :
    (resolve_matchers { matcher := some [] }).length = 0 ∧
    MiddlewareEndpoint.middleware_manifest env_empty_matcher demo_endpoint =
      Except.ok { version := 2,
                  middleware := [("/",
                    { files := [], name := "middleware", page := "/", regions := none,
                      matchers := [] })] } :=
  ⟨rfl, rfl⟩

/-- C1 (amended): when the parsed config's `matcher` field is absent, the
matcher resolution inside `output_assets` produces exactly one matcher with
`original_source = "/:path*"` and `regexp = "^/.*$"`, and the manifest entry
for route "/" carries exactly that matcher; a config with an explicit empty
matcher list instead yields an empty matcher list for the entry. -/
theorem resolve_matchers_default_only_when_absent (env : BuildEnv)
    (self : MiddlewareEndpoint) (m : MiddlewaresManifestV2)
    (hcfg : (env.parse_config_from_source self.userland_module).matcher = none)
    (hm : MiddlewareEndpoint.middleware_manifest env self = Except.ok m) :
    resolve_matchers (env.parse_config_from_source self.userland_module) =
      [{ regexp := some "^/.*$", original_source := "/:path*" }] ∧
    ∃ d : EdgeFunctionDefinition, m.middleware = [("/", d)] ∧
      d.matchers = [{ regexp := some "^/.*$", original_source := "/:path*" }] := by
  have hres : resolve_matchers (env.parse_config_from_source self.userland_module) =
      [{ regexp := some "^/.*$", original_source := "/:path*" }] := by
    unfold resolve_matchers
    rw [hcfg]
  refine ⟨hres, ?_⟩
  unfold MiddlewareEndpoint.middleware_manifest at hm
  cases ha : MiddlewareEndpoint.assemble env self with
  | error e => rw [ha] at hm; cases hm
  | ok r =>
    rw [ha] at hm
    obtain ⟨entries, outs, paths, h1, h2, hr⟩ := assemble_ok_inv env self r ha
    have hm2 : r.2 = m := by simpa [Except.map] using hm
    refine ⟨{ files := paths, name := "middleware", page := "/", regions := none,
              matchers := resolve_matchers (env.parse_config_from_source self.userland_module) },
            ?_, ?_⟩
    · rw [← hm2, hr]
      rfl
    · exact hres

/-- Witness for the amended C1 theorem at a concrete environment. -/
theorem resolve_matchers_default_only_when_absent_witness :
    resolve_matchers (env_no_matcher.parse_config_from_source demo_endpoint.userland_module) =
      [{ regexp := some "^/.*$", original_source := "/:path*" }] ∧
    ∃ d : EdgeFunctionDefinition, demo_manifest.middleware = [("/", d)] ∧
      d.matchers = [{ regexp := some "^/.*$", original_source := "/:path*" }] :=
  resolve_matchers_default_only_when_absent env_no_matcher demo_endpoint demo_manifest rfl rfl

/-! ### Claim C2 -/

/-- C2: an explicit non-empty `matcher` list resolves to one
`MiddlewareMatcher` per pattern, in input order, with only
`original_source` populated and every optional field absent. -/
theorem resolve_matchers_explicit_passthrough (matchers : List String)
    (_hne : matchers ≠ []) :
    resolve_matchers { matcher := some matchers } =
      matchers.map (fun matcher =>
        { regexp := none, original_source := matcher, locale := none,
          has := none, missing := none }) :=
  rfl

/-- Witness for C2 at the spec example `matcher = ["/api/:path*", "/admin"]`. -/
theorem resolve_matchers_explicit_passthrough_witness :
    resolve_matchers { matcher := some ["/api/:path*", "/admin"] } =
      [{ regexp := none, original_source := "/api/:path*", locale := none,
         has := none, missing := none },
       { regexp := none, original_source := "/admin", locale := none,
         has := none, missing := none }] := by
  rw [resolve_matchers_explicit_passthrough ["/api/:path*", "/admin"] (by decide)]
  rfl

/-! ### Claim C3 -/

/-- C3: the relative-path computation of `output_assets` relativizes every
bundle asset against the node root; if any asset lies outside the node root
the whole computation fails with the error "middleware file path must be
inside the node root" and no partial result is produced, and when all
assets lie under the root it succeeds with one relative path per asset, in
order. -/
theorem files_paths_from_root_inside_or_error (node_root : String)
    (assets : List OutputAsset) :
    ((∃ a ∈ assets, get_path_to node_root a.path = none) →
      files_paths_from_root node_root assets =
        Except.error "middleware file path must be inside the node root") ∧
    ((∀ a ∈ assets, get_path_to node_root a.path ≠ none) →
      ∃ paths, files_paths_from_root node_root assets = Except.ok paths ∧
        paths.length = assets.length ∧
        ∀ (i : Nat) (hi : i < assets.length) (hp : i < paths.length),
          get_path_to node_root ((assets.get ⟨i, hi⟩).path) = some (paths.get ⟨i, hp⟩)) := by
  induction assets with
  | nil =>
    constructor
    · rintro ⟨a, ha, -⟩
      cases ha
    · intro _
      exact ⟨[], rfl, rfl, fun i hi _ => absurd hi (by simp)⟩
  | cons a rest ih =>
    constructor
    · rintro ⟨b, hb, hnone⟩
      rcases List.mem_cons.mp hb with h | h
      · subst h
        simp only [files_paths_from_root, hnone]
      · cases hga : get_path_to node_root a.path with
        | none => simp only [files_paths_from_root, hga]
        | some p =>
          simp only [files_paths_from_root, hga, ih.1 ⟨b, h, hnone⟩]
    · intro hall
      have ha : get_path_to node_root a.path ≠ none := hall a (List.mem_cons_self a rest)
      cases hga : get_path_to node_root a.path with
      | none => exact absurd hga ha
      | some p =>
        obtain ⟨paths, hps, hlen, hptw⟩ :=
          ih.2 (fun b hb => hall b (List.mem_cons_of_mem a hb))
        refine ⟨p :: paths, ?_, by simp [hlen], ?_⟩
        · simp only [files_paths_from_root, hga, hps]
        · intro i hi hp
          cases i with
          | zero => simpa using hga
          | succ j =>
            have hj : j < rest.length := Nat.lt_of_succ_lt_succ (by simpa using hi)
            have hpj : j < paths.length := Nat.lt_of_succ_lt_succ (by simpa using hp)
            simpa using hptw j hj hpj

/-- Witness for C3: one asset under the root, one outside, fails as a whole. -/
theorem files_paths_from_root_inside_or_error_witness :
    files_paths_from_root "/proj/.next"
      [{ path := "/proj/.next/server/a.js", content := "" },
       { path := "/other/x.js", content := "" }] =
      Except.error "middleware file path must be inside the node root" :=
  (files_paths_from_root_inside_or_error "/proj/.next"
    [{ path := "/proj/.next/server/a.js", content := "" },
     { path := "/other/x.js", content := "" }]).1
    ⟨{ path := "/other/x.js", content := "" }, by decide, by decide⟩

/-! ### Claim C4 -/

/-- C4: on every successful assembly the constructed definition has
`files` = the root-relative bundle paths in bundle order, `name` =
"middleware", `page` = "/", `regions` = none and `matchers` = the resolved
matcher list, and the manifest holds exactly one entry keyed "/". -/
theorem manifest_single_entry_shape (env : BuildEnv) (self : MiddlewareEndpoint)
    (entries : List EvaluatableAsset) (outs : List OutputAsset) (paths : List String)
    (h1 : (self.edgeFilesTraced env).result = Except.ok (entries, outs))
    (h2 : files_paths_from_root self.project.node_root outs = Except.ok paths) :
    MiddlewareEndpoint.middleware_manifest env self =
      Except.ok { version := 2,
                  middleware := [("/",
                    { files := paths, name := "middleware", page := "/", regions := none,
                      matchers := resolve_matchers
                        (env.parse_config_from_source self.userland_module) })] } := by
  unfold MiddlewareEndpoint.middleware_manifest
  rw [assemble_ok env self entries outs paths h1 h2]
  rfl

/-- Witness for C4 at a concrete environment with one bundle file. -/
theorem manifest_single_entry_shape_witness :
    MiddlewareEndpoint.middleware_manifest env_no_matcher demo_endpoint =
      Except.ok { version := 2,
                  middleware := [("/",
                    { files := ["server/middleware/edge.js"], name := "middleware",
                      page := "/", regions := none,
                      matchers := resolve_matchers
                        (env_no_matcher.parse_config_from_source
                          demo_endpoint.userland_module) })] } :=
  manifest_single_entry_shape env_no_matcher demo_endpoint
    [{ ident := 7 }, { ident := 0 }]
    [{ path := "/proj/.next/server/middleware/edge.js", content := "code" }]
    ["server/middleware/edge.js"] rfl rfl

/-! ### Claim C5 -/

/-- C5: on every successful run, `output_assets` serializes the manifest
with the pretty serializer, wraps it as a new asset at exactly
`server/middleware/middleware-manifest.json` under the node root, and
appends it, so the result is the bundle outputs in order followed by the
manifest asset as last element. -/
theorem output_assets_appends_manifest_asset (env : BuildEnv) (self : MiddlewareEndpoint)
    (entries : List EvaluatableAsset) (outs : List OutputAsset) (paths : List String)
    (h1 : (self.edgeFilesTraced env).result = Except.ok (entries, outs))
    (h2 : files_paths_from_root self.project.node_root outs = Except.ok paths) :
    ∃ (m : MiddlewaresManifestV2) (asset : OutputAsset),
      MiddlewareEndpoint.middleware_manifest env self = Except.ok m ∧
      asset.path = join_path self.project.node_root
        "server/middleware/middleware-manifest.json" ∧
      asset.content = to_string_pretty m ∧
      MiddlewareEndpoint.output_assets env self = Except.ok (outs ++ [asset]) := by
  refine ⟨manifest_of env self paths, manifest_asset_of env self paths, ?_, rfl, rfl, ?_⟩
  · unfold MiddlewareEndpoint.middleware_manifest
    rw [assemble_ok env self entries outs paths h1 h2]
    rfl
  · unfold MiddlewareEndpoint.output_assets
    rw [assemble_ok env self entries outs paths h1 h2]
    rfl

/-- Witness for C5 at a concrete environment with one bundle file. -/
theorem output_assets_appends_manifest_asset_witness :
    ∃ (m : MiddlewaresManifestV2) (asset : OutputAsset),
      MiddlewareEndpoint.middleware_manifest env_no_matcher demo_endpoint = Except.ok m ∧
      asset.path = join_path demo_endpoint.project.node_root
        "server/middleware/middleware-manifest.json" ∧
      asset.content = to_string_pretty m ∧
      MiddlewareEndpoint.output_assets env_no_matcher demo_endpoint =
        Except.ok ([{ path := "/proj/.next/server/middleware/edge.js",
                      content := "code" }] ++ [asset]) :=
  output_assets_appends_manifest_asset env_no_matcher demo_endpoint
    [{ ident := 7 }, { ident := 0 }]
    [{ path := "/proj/.next/server/middleware/edge.js", content := "code" }]
    ["server/middleware/edge.js"] rfl rfl

/-! ### Claim C6 -/

/-- C6: if the wrapped entry module cannot be resolved to a chunk-placeable
evaluatable form, `edge_files` fails with exactly "Entry module must be
evaluatable" and the error propagates through `output_assets`; when it can,
no such error is raised and the evaluatable module is appended to the
runtime entries handed to the chunking engine. -/
theorem edge_files_evaluatable_requirement (env : BuildEnv) (self : MiddlewareEndpoint) :
    ((env.try_resolve_chunk_placeable (self.wrapped_module env) = none ∨
      ∃ c, env.try_resolve_chunk_placeable (self.wrapped_module env) = some c ∧
        env.try_resolve_evaluatable c = none) →
      (self.edgeFilesTraced env).result = Except.error "Entry module must be evaluatable" ∧
      MiddlewareEndpoint.output_assets env self =
        Except.error "Entry module must be evaluatable") ∧
    (∀ (c : EcmascriptChunkPlaceable) (e : EvaluatableAsset),
      env.try_resolve_chunk_placeable (self.wrapped_module env) = some c →
      env.try_resolve_evaluatable c = some e →
      (self.edgeFilesTraced env).result =
        Except.ok
          (env.get_server_runtime_entries ServerContextType.middleware
              NextMode.development self.context ++ [e],
            env.evaluated_chunk_group self.project.edge_chunking_context c.ident
              (env.get_server_runtime_entries ServerContextType.middleware
                NextMode.development self.context ++ [e]))) := by
  constructor
  · intro h
    have hres : (self.edgeFilesTraced env).result =
        Except.error "Entry module must be evaluatable" := by
      rcases h with h | ⟨c, hc, he⟩
      · simp only [MiddlewareEndpoint.edgeFilesTraced, h]
      · simp only [MiddlewareEndpoint.edgeFilesTraced, hc, he]
    refine ⟨hres, ?_⟩
    unfold MiddlewareEndpoint.output_assets MiddlewareEndpoint.assemble
    rw [hres]
    rfl
  · intro c e hc he
    simp only [MiddlewareEndpoint.edgeFilesTraced, hc, he]

/-- Witness for C6: an environment whose entry module is not resolvable. -/
theorem edge_files_evaluatable_requirement_witness :
    (MiddlewareEndpoint.edgeFilesTraced env_unresolvable demo_endpoint).result =
      Except.error "Entry module must be evaluatable" ∧
    MiddlewareEndpoint.output_assets env_unresolvable demo_endpoint =
      Except.error "Entry module must be evaluatable" :=
  (edge_files_evaluatable_requirement env_unresolvable demo_endpoint).1 (Or.inl rfl)

/-! ### Claim C7 -/

/-- The relative-path computation depends only on the asset paths. -/
theorem files_paths_from_root_congr (root : String) :
    ∀ (as bs : List OutputAsset), as.map OutputAsset.path = bs.map OutputAsset.path →
      files_paths_from_root root as = files_paths_from_root root bs := by
  intro as
  induction as with
  | nil =>
    intro bs h
    cases bs with
    | nil => rfl
    | cons b bs => simp at h
  | cons a rest ih =>
    intro bs h
    cases bs with
    | nil => simp at h
    | cons b bs =>
      simp only [List.map_cons, List.cons.injEq] at h
      obtain ⟨hpath, htail⟩ := h
      simp only [files_paths_from_root, hpath, ih bs htail]

/-- Inversion of a successful manifest computation. -/
theorem middleware_manifest_ok_inv (env : BuildEnv) (self : MiddlewareEndpoint)
    (m : MiddlewaresManifestV2)
    (hm : MiddlewareEndpoint.middleware_manifest env self = Except.ok m) :
    ∃ entries outs paths,
      (self.edgeFilesTraced env).result = Except.ok (entries, outs) ∧
      files_paths_from_root self.project.node_root outs = Except.ok paths ∧
      m = manifest_of env self paths := by
  unfold MiddlewareEndpoint.middleware_manifest at hm
  cases ha : MiddlewareEndpoint.assemble env self with
  | error e => rw [ha] at hm; cases hm
  | ok r =>
    rw [ha] at hm
    have hm2 : r.2 = m := by simpa [Except.map] using hm
    obtain ⟨entries, outs, paths, he, hf, hr⟩ := assemble_ok_inv env self r ha
    exact ⟨entries, outs, paths, he, hf, by rw [← hm2, hr]⟩

/-- C7: manifest assembly is deterministic — two runs whose bundle outputs
have identical paths, whose node roots coincide and whose resolved matcher
lists coincide serialize byte-identical manifests. -/
theorem manifest_serialization_deterministic
    (env1 env2 : BuildEnv) (self1 self2 : MiddlewareEndpoint)
    (entries1 entries2 : List EvaluatableAsset) (outs1 outs2 : List OutputAsset)
    (m1 m2 : MiddlewaresManifestV2)
    (h1 : (self1.edgeFilesTraced env1).result = Except.ok (entries1, outs1))
    (h2 : (self2.edgeFilesTraced env2).result = Except.ok (entries2, outs2))
    (hpaths : outs1.map OutputAsset.path = outs2.map OutputAsset.path)
    (hroot : self1.project.node_root = self2.project.node_root)
    (hmatch : resolve_matchers (env1.parse_config_from_source self1.userland_module) =
      resolve_matchers (env2.parse_config_from_source self2.userland_module))
    (hm1 : MiddlewareEndpoint.middleware_manifest env1 self1 = Except.ok m1)
    (hm2 : MiddlewareEndpoint.middleware_manifest env2 self2 = Except.ok m2) :
    to_string_pretty m1 = to_string_pretty m2 := by
  obtain ⟨e1, o1, p1, he1, hf1, hv1⟩ := middleware_manifest_ok_inv env1 self1 m1 hm1
  obtain ⟨e2, o2, p2, he2, hf2, hv2⟩ := middleware_manifest_ok_inv env2 self2 m2 hm2
  have ho1 : o1 = outs1 := by
    have h3 := he1.symm.trans h1
    simp only [Except.ok.injEq, Prod.mk.injEq] at h3
    exact h3.2
  have ho2 : o2 = outs2 := by
    have h3 := he2.symm.trans h2
    simp only [Except.ok.injEq, Prod.mk.injEq] at h3
    exact h3.2
  have hp : p1 = p2 := by
    have hcongr := files_paths_from_root_congr self1.project.node_root outs1 outs2 hpaths
    rw [ho1] at hf1
    rw [ho2] at hf2
    rw [hcongr, hroot, hf2] at hf1
    exact (Except.ok.injEq _ _).mp hf1.symm
  rw [hv1, hv2, hp]
  unfold manifest_of
  rw [hmatch]

/-- Witness for C7: two runs differing in bundle content and bootstrap
entries but with identical paths and matcher lists. -/
theorem manifest_serialization_deterministic_witness :
    to_string_pretty demo_manifest = to_string_pretty demo_manifest :=
  manifest_serialization_deterministic env_no_matcher env_alt demo_endpoint demo_endpoint
    [{ ident := 7 }, { ident := 0 }] [{ ident := 9 }, { ident := 0 }]
    [{ path := "/proj/.next/server/middleware/edge.js", content := "code" }]
    [{ path := "/proj/.next/server/middleware/edge.js", content := "code2" }]
    demo_manifest demo_manifest rfl rfl rfl rfl rfl rfl rfl

/-! ### Claim C8 -/

/-- C8: `write_to_disk` is all-or-nothing — an assembly failure is returned
as the error with no asset set ever emitted, and on success the full asset
set is emitted before the `Edge` payload of server-relevant paths is
returned. -/
theorem write_to_disk_all_or_nothing (env : BuildEnv) (self : MiddlewareEndpoint) :
    (∀ e, MiddlewareEndpoint.output_assets env self = Except.error e →
      (MiddlewareEndpoint.write_to_disk env self).emitted = [] ∧
      (MiddlewareEndpoint.write_to_disk env self).result = Except.error e) ∧
    (∀ assets, MiddlewareEndpoint.output_assets env self = Except.ok assets →
      (MiddlewareEndpoint.write_to_disk env self).emitted = [assets] ∧
      (MiddlewareEndpoint.write_to_disk env self).result =
        Except.ok (WrittenEndpoint.edge
          (env.all_server_paths assets self.project.node_root))) := by
  constructor
  · intro e he
    unfold MiddlewareEndpoint.write_to_disk
    rw [he]
    exact ⟨rfl, rfl⟩
  · intro assets ha
    unfold MiddlewareEndpoint.write_to_disk
    rw [ha]
    exact ⟨rfl, rfl⟩

/-- Witness for C8: a failing assembly emits nothing and returns the error. -/
theorem write_to_disk_all_or_nothing_witness :
    (MiddlewareEndpoint.write_to_disk env_unresolvable demo_endpoint).emitted = [] ∧
    (MiddlewareEndpoint.write_to_disk env_unresolvable demo_endpoint).result =
      Except.error "Entry module must be evaluatable" :=
  (write_to_disk_all_or_nothing env_unresolvable demo_endpoint).1
    "Entry module must be evaluatable" rfl

/-! ### Claim C9 -/

/-- C9: `server_changed` applies the project's change signal to exactly the
same `output_assets` computation whose result `write_to_disk` emits, so the
two operations agree on the tracked asset set for the same inputs. -/
theorem server_changed_tracks_output_assets (env : BuildEnv) (self : MiddlewareEndpoint) :
    MiddlewareEndpoint.server_changed env self =
      env.project_server_changed (MiddlewareEndpoint.output_assets env self) ∧
    (MiddlewareEndpoint.write_to_disk env self).emitted =
      emitted_of (MiddlewareEndpoint.output_assets env self) := by
  refine ⟨rfl, ?_⟩
  unfold MiddlewareEndpoint.write_to_disk emitted_of
  cases MiddlewareEndpoint.output_assets env self with
  | error e => rfl
  | ok assets => rfl

/-! ### Claim C10 -/

/-- C10: `edge_files` requests the server runtime bootstrap entries with
`ServerContextType.middleware` and `NextMode.development` unconditionally,
for every environment and endpoint — the mode is a fixed constant, so the
bootstrap entry set never varies with a build mode. -/
theorem edge_files_runtime_entries_mode_constant (env : BuildEnv)
    (self : MiddlewareEndpoint) :
    (self.edgeFilesTraced env).runtime_request =
      (ServerContextType.middleware, NextMode.development) ∧
    (self.edgeFilesTraced env).bootstrap_entries =
      env.get_server_runtime_entries ServerContextType.middleware NextMode.development
        self.context := by
  cases hx : env.try_resolve_chunk_placeable (self.wrapped_module env) with
  | none => simp [MiddlewareEndpoint.edgeFilesTraced, hx]
  | some c =>
    cases hy : env.try_resolve_evaluatable c with
    | none => simp [MiddlewareEndpoint.edgeFilesTraced, hx, hy]
    | some e => simp [MiddlewareEndpoint.edgeFilesTraced, hx, hy]
